import Mathlib

/-!
Verification of the ReTrack logistics backend's status-tracking and
validation logic, shallowly embedded from `apps/shipments/models.py`,
`apps/shipments/views.py`, `apps/shipments/serializers.py` and
`apps/tracking/models.py`.

Timestamps are modelled as natural numbers, decimal weights as integers
(hundredths of a pound), and the relational store as explicit lists of
rows passed through the operations.
-/

namespace ReTrack

/-- The `ShipmentStatusEvent.Status` choices. -/
inductive Status where
  | pending
  | inTransit
  | delivered
  | delayed
  | cancelled
deriving DecidableEq

/-- The columns of a `ShipmentStatusEvent` row that the status logic reads. -/
structure StatusEvent where
  status : Status
  eventTimestamp : Nat
deriving DecidableEq

/-- Errors surfaced by event recording: the two `ValidationError`s raised by
`ShipmentStatusEvent.clean` / `GPSTrackingEvent.clean`, and the
`IntegrityError` raised by a database `UniqueConstraint`. -/
inductive EventError where
  | chronology
  | duplicate
  | integrityError
deriving DecidableEq

/-- Embeds `order_by("-event_timestamp").first()`: an element of maximal
`eventTimestamp` (tie-break between equal timestamps is arbitrary in the
database; this model keeps the earliest-inserted row). -/
def latestBy {α : Type} (ts : α → Nat) : List α → Option α
  | [] => none
  | e :: es =>
    match latestBy ts es with
    | none => some e
    | some m => if ts e < ts m then some m else some e

/-- The shipment's latest status event. -/
def latestEvent (log : List StatusEvent) : Option StatusEvent :=
  latestBy StatusEvent.eventTimestamp log

/-- Embeds `latest_event and latest_event.event_timestamp > self.event_timestamp`. -/
def chronologyViolated (log : List StatusEvent) (ts : Nat) : Bool :=
  match latestEvent log with
  | some l => ts < l.eventTimestamp
  | none => false

/-- The duplicate query of `ShipmentStatusEvent.clean`: an existing row with
the same status and event timestamp (the shipment is fixed: `log` is that
shipment's event list). -/
def isDuplicate (log : List StatusEvent) (e : StatusEvent) : Bool :=
  log.any fun x => decide (x.status = e.status ∧ x.eventTimestamp = e.eventTimestamp)

/-- Embeds `ShipmentStatusEvent.clean`: chronological validation, then the
duplicate check. -/
def statusEventClean (log : List StatusEvent) (e : StatusEvent) : Except EventError Unit :=
  if chronologyViolated log e.eventTimestamp then .error .chronology
  else if isDuplicate log e then .error .duplicate
  else .ok ()

/-- A plain database insert of a status event row: only the
`UniqueConstraint` on `(shipment, status, event_timestamp)` applies; it does
not run `clean()`. This is what `ShipmentStatusEvent.objects.create` does. -/
def dbInsertStatusEvent (log : List StatusEvent) (e : StatusEvent) :
    Except EventError (List StatusEvent) :=
  if isDuplicate log e then .error .integrityError
  else .ok (log ++ [e])

/-- The validated write path (a `ModelForm` / admin save): `full_clean()`
first, then the database insert. -/
def validatedInsertStatusEvent (log : List StatusEvent) (e : StatusEvent) :
    Except EventError (List StatusEvent) := do
  statusEventClean log e
  dbInsertStatusEvent log e

/-- The columns of a `Shipment` row touched by `record_status_event` and
`current_status`, together with the shipment's event log. -/
structure ShipmentState where
  actualPickup : Option Nat
  actualDelivery : Option Nat
  statusEvents : List StatusEvent
deriving DecidableEq

/-- Embeds `Shipment.current_status`: status of the latest event, `Pending` when the
shipment has no events. -/
def currentStatus (s : ShipmentState) : Status :=
  match latestEvent s.statusEvents with
  | some e => e.status
  | none => Status.pending

/-- Embeds `Shipment.record_status_event`: creates the event row via
`objects.create` (database constraints only — `clean()` is not invoked),
then sets `actual_pickup` / `actual_delivery` when unset and the new status
is In Transit / Delivered. `event_timestamp or timezone.now()` is modelled
by `Option.getD now`. -/
def recordStatusEvent (s : ShipmentState) (newStatus : Status)
    (eventTimestamp : Option Nat) (now : Nat) :
    Except EventError (ShipmentState × StatusEvent) := do
  let e : StatusEvent := { status := newStatus, eventTimestamp := eventTimestamp.getD now }
  let log ← dbInsertStatusEvent s.statusEvents e
  let s1 := { s with statusEvents := log }
  let s2 := if newStatus = Status.inTransit ∧ s1.actualPickup = none
            then { s1 with actualPickup := some e.eventTimestamp } else s1
  let s3 := if newStatus = Status.delivered ∧ s2.actualDelivery = none
            then { s2 with actualDelivery := some e.eventTimestamp } else s2
  return (s3, e)

section LatestLemmas

variable {α : Type} (ts : α → Nat)

theorem latestBy_eq_none_iff (l : List α) : latestBy ts l = none ↔ l = [] := by
  cases l with
  | nil => simp [latestBy]
  | cons e es =>
    simp only [latestBy]
    cases h : latestBy ts es with
    | none => simp
    | some m =>
      constructor
      · intro hc
        by_cases hlt : ts e < ts m <;> simp [hlt] at hc
      · intro hc
        exact absurd hc (List.cons_ne_nil _ _)

theorem latestBy_mem {l : List α} {e : α} (h : latestBy ts l = some e) : e ∈ l := by
  induction l with
  | nil => simp [latestBy] at h
  | cons a as ih =>
    simp only [latestBy] at h
    cases hm : latestBy ts as with
    | none =>
      rw [hm] at h
      simp at h
      simp [h]
    | some m =>
      rw [hm] at h
      by_cases hlt : ts a < ts m
      · simp [hlt] at h
        exact List.mem_cons_of_mem _ (ih (h ▸ hm))
      · simp [hlt] at h
        simp [h]

theorem latestBy_max {l : List α} : ∀ {e : α}, latestBy ts l = some e →
    ∀ x ∈ l, ts x ≤ ts e := by
  induction l with
  | nil => intro e h; simp [latestBy] at h
  | cons a as ih =>
    intro e h x hx
    simp only [latestBy] at h
    cases hm : latestBy ts as with
    | none =>
      rw [hm] at h
      simp at h
      rcases List.mem_cons.mp hx with hxa | hxas
      · simp [hxa, h]
      · exact absurd rfl ((latestBy_eq_none_iff ts as).mp hm ▸ List.ne_nil_of_mem hxas)
    | some m =>
      rw [hm] at h
      by_cases hlt : ts a < ts m
      · simp [hlt] at h
        rcases List.mem_cons.mp hx with hxa | hxas
        · exact hxa ▸ le_of_lt (h ▸ hlt)
        · exact ih (h ▸ hm) x hxas
      · simp [hlt] at h
        rcases List.mem_cons.mp hx with hxa | hxas
        · exact hxa ▸ h ▸ le_refl _
        · exact le_trans (ih hm x hxas) (h ▸ Nat.le_of_not_lt hlt)

end LatestLemmas

theorem chronologyViolated_iff (log : List StatusEvent) (t : Nat) :
    chronologyViolated log t = true ↔ ∃ x ∈ log, t < x.eventTimestamp := by
  unfold chronologyViolated latestEvent
  cases h : latestBy StatusEvent.eventTimestamp log with
  | none =>
    simp
    intro x hx
    exact absurd ((latestBy_eq_none_iff _ log).mp h ▸ hx) (List.not_mem_nil x)
  | some m =>
    simp only [decide_eq_true_eq]
    constructor
    · intro hlt
      exact ⟨m, latestBy_mem _ h, hlt⟩
    · rintro ⟨x, hx, hlt⟩
      exact lt_of_lt_of_le hlt (latestBy_max _ h x hx)

/-- C2: for every shipment, `current_status` is `Pending` when the shipment
has no status events, and otherwise equals the status of an event of the
shipment whose `event_timestamp` is maximal among the shipment's events. -/
theorem currentStatus_spec (s : ShipmentState) :
    (s.statusEvents = [] → currentStatus s = Status.pending) ∧
    (s.statusEvents ≠ [] →
      ∃ e ∈ s.statusEvents, currentStatus s = e.status ∧
        ∀ x ∈ s.statusEvents, x.eventTimestamp ≤ e.eventTimestamp) := by
  constructor
  · intro h
    unfold currentStatus latestEvent
    rw [(latestBy_eq_none_iff _ _).mpr h]
  · intro h
    cases hle : latestEvent s.statusEvents with
    | none =>
      exact absurd ((latestBy_eq_none_iff _ _).mp hle) h
    | some e =>
      refine ⟨e, latestBy_mem _ hle, ?_, latestBy_max _ hle⟩
      unfold currentStatus
      rw [hle]

/-- Witness for C2 at a concrete shipment with two events. -/
theorem currentStatus_spec_witness :
    ∃ e ∈ [StatusEvent.mk Status.inTransit 3, StatusEvent.mk Status.delivered 7],
      currentStatus ⟨some 3, some 7,
          [StatusEvent.mk Status.inTransit 3, StatusEvent.mk Status.delivered 7]⟩ = e.status ∧
      ∀ x ∈ [StatusEvent.mk Status.inTransit 3, StatusEvent.mk Status.delivered 7],
        x.eventTimestamp ≤ e.eventTimestamp :=
  (currentStatus_spec ⟨some 3, some 7,
      [StatusEvent.mk Status.inTransit 3, StatusEvent.mk Status.delivered 7]⟩).2 (by decide)

/-- C1 (the code contradicts the claim): `record_status_event` inserts via
`objects.create`, which never invokes `clean()`, and no database constraint
enforces chronology. At a shipment whose latest event has timestamp 10,
recording a Delivered event at timestamp 5 would be rejected by
`ShipmentStatusEvent.clean` with the chronology error, yet
`record_status_event` succeeds and appends the out-of-order row (and even
sets `actual_delivery` to 5, before `actual_pickup` = 10). -/
theorem recordStatusEvent_chronology_bug :
    statusEventClean [StatusEvent.mk Status.inTransit 10] (StatusEvent.mk Status.delivered 5)
      = .error .chronology ∧
    recordStatusEvent ⟨some 10, none, [StatusEvent.mk Status.inTransit 10]⟩
        Status.delivered (some 5) 0
      = .ok (⟨some 10, some 5,
          [StatusEvent.mk Status.inTransit 10, StatusEvent.mk Status.delivered 5]⟩,
          StatusEvent.mk Status.delivered 5) :=
  ⟨rfl, rfl⟩

/-- C3: when `record_status_event` succeeds, `actual_pickup` becomes the new
event's timestamp exactly when the new status is In Transit and
`actual_pickup` was previously unset, and is unchanged otherwise;
symmetrically for Delivered and `actual_delivery`. -/
theorem recordStatusEvent_actuals (s : ShipmentState) (st : Status) (t now : Nat)
    (s' : ShipmentState) (e : StatusEvent)
    (h : recordStatusEvent s st (some t) now = .ok (s', e)) :
    s'.actualPickup = (if st = Status.inTransit ∧ s.actualPickup = none
      then some t else s.actualPickup) ∧
    s'.actualDelivery = (if st = Status.delivered ∧ s.actualDelivery = none
      then some t else s.actualDelivery) := by
  by_cases hd : isDuplicate s.statusEvents (StatusEvent.mk st t)
  · exfalso
    simp [recordStatusEvent, dbInsertStatusEvent, hd, Bind.bind, Except.bind] at h
  · simp [recordStatusEvent, dbInsertStatusEvent, hd, Bind.bind, Except.bind,
      pure, Except.pure] at h
    obtain ⟨hs, -⟩ := h
    subst hs
    by_cases hit : st = Status.inTransit ∧ s.actualPickup = none
    · by_cases hdel : st = Status.delivered ∧ s.actualDelivery = none
      · exact absurd (hit.1 ▸ hdel.1) (by simp)
      · simp [hit, hdel]
    · by_cases hdel : st = Status.delivered ∧ s.actualDelivery = none
      · simp [hit, hdel]
      · simp [hit, hdel]

/-- Witness for C3: recording In Transit at timestamp 4 on a fresh shipment
sets `actual_pickup` to 4 and leaves `actual_delivery` unset. -/
theorem recordStatusEvent_actuals_witness :
    ((⟨some 4, none, [StatusEvent.mk Status.inTransit 4]⟩ : ShipmentState).actualPickup =
      if Status.inTransit = Status.inTransit ∧
          (ShipmentState.mk none none []).actualPickup = none
      then some 4 else (ShipmentState.mk none none []).actualPickup) ∧
    ((⟨some 4, none, [StatusEvent.mk Status.inTransit 4]⟩ : ShipmentState).actualDelivery =
      if Status.inTransit = Status.delivered ∧
          (ShipmentState.mk none none []).actualDelivery = none
      then some 4 else (ShipmentState.mk none none []).actualDelivery) :=
  recordStatusEvent_actuals ⟨none, none, []⟩ Status.inTransit 4 0
    ⟨some 4, none, [StatusEvent.mk Status.inTransit 4]⟩
    (StatusEvent.mk Status.inTransit 4) rfl

/-- C4 counterexample: at a shipment with events (In Transit, 5) and
(Delivered, 10), recording the duplicate (In Transit, 5) fails — but with
the chronology error, not the duplicate error, because `clean()` checks
chronology first. -/
theorem validatedInsert_duplicate_counterexample :
    (∃ x ∈ [StatusEvent.mk Status.inTransit 5, StatusEvent.mk Status.delivered 10],
        x.status = Status.inTransit ∧ x.eventTimestamp = 5) ∧
    validatedInsertStatusEvent
        [StatusEvent.mk Status.inTransit 5, StatusEvent.mk Status.delivered 10]
        (StatusEvent.mk Status.inTransit 5) ≠ .error .duplicate ∧
    validatedInsertStatusEvent
        [StatusEvent.mk Status.inTransit 5, StatusEvent.mk Status.delivered 10]
        (StatusEvent.mk Status.inTransit 5) = .error .chronology := by
  refine ⟨⟨StatusEvent.mk Status.inTransit 5, by simp, rfl, rfl⟩, ?_, rfl⟩
  intro hc
  rw [show validatedInsertStatusEvent
      [StatusEvent.mk Status.inTransit 5, StatusEvent.mk Status.delivered 10]
      (StatusEvent.mk Status.inTransit 5) = .error .chronology from rfl] at hc
  exact (by decide : EventError.chronology ≠ EventError.duplicate) (Except.error.inj hc)

/-- C4 (amended): recording a status event whose
(shipment, status, event_timestamp) tuple already exists always fails and
creates no row; the reported error is the duplicate error when the event's
timestamp is not earlier than every existing event of the shipment, and the
chronology error when some existing event is strictly later. -/
theorem validatedInsert_duplicate_fails (log : List StatusEvent) (e : StatusEvent)
    (hdup : ∃ x ∈ log, x.status = e.status ∧ x.eventTimestamp = e.eventTimestamp) :
    (∀ log', validatedInsertStatusEvent log e ≠ .ok log') ∧
    ((∃ y ∈ log, e.eventTimestamp < y.eventTimestamp) →
        validatedInsertStatusEvent log e = .error .chronology) ∧
    ((∀ y ∈ log, y.eventTimestamp ≤ e.eventTimestamp) →
        validatedInsertStatusEvent log e = .error .duplicate) := by
  have hd : isDuplicate log e = true := by
    rcases hdup with ⟨x, hx, h1, h2⟩
    unfold isDuplicate
    rw [List.any_eq_true]
    exact ⟨x, hx, by simp [h1, h2]⟩
  refine ⟨?_, ?_, ?_⟩
  · intro log'
    unfold validatedInsertStatusEvent statusEventClean
    by_cases hc : chronologyViolated log e.eventTimestamp
    · simp [hc, Bind.bind, Except.bind]
    · simp [hc, hd, Bind.bind, Except.bind]
  · intro hy
    have hc : chronologyViolated log e.eventTimestamp = true :=
      (chronologyViolated_iff _ _).mpr hy
    unfold validatedInsertStatusEvent statusEventClean
    simp [hc, Bind.bind, Except.bind]
  · intro hy
    have hc : chronologyViolated log e.eventTimestamp = false := by
      rw [Bool.eq_false_iff]
      intro hcc
      rcases (chronologyViolated_iff _ _).mp hcc with ⟨y, hmem, hlt⟩
      exact absurd (hy y hmem) (not_le.mpr hlt)
    unfold validatedInsertStatusEvent statusEventClean
    simp [hc, hd, Bind.bind, Except.bind]

/-- Witness for C4's amended theorem: a duplicate whose timestamp equals the
shipment's latest event timestamp is rejected with the duplicate error. -/
theorem validatedInsert_duplicate_fails_witness :
    validatedInsertStatusEvent [StatusEvent.mk Status.inTransit 5]
      (StatusEvent.mk Status.inTransit 5) = .error .duplicate :=
  (validatedInsert_duplicate_fails [StatusEvent.mk Status.inTransit 5]
      (StatusEvent.mk Status.inTransit 5)
      ⟨StatusEvent.mk Status.inTransit 5, by simp, rfl, rfl⟩).2.2
    (by decide)

/-- The dependent-row counts `CarrierViewSet.destroy` reads from a carrier:
`carrier.contacts.count()`, `carrier.drivers.count()`,
`carrier.vehicles.count()`. -/
structure CarrierAgg where
  contactCount : Nat
  driverCount : Nat
  vehicleCount : Nat
deriving DecidableEq

/-- The two responses `CarrierViewSet.destroy` can produce: HTTP 400 with
the error payload carrying the three counts, or HTTP 204 after deletion. -/
inductive DestroyResponse where
  | refused (contacts drivers vehicles : Nat)
  | deleted
deriving DecidableEq

/-- Embeds `CarrierViewSet.destroy`: refuse with the counts when any dependent rows
exist, otherwise delete the carrier. -/
def carrierDestroy (c : CarrierAgg) : DestroyResponse :=
  if c.contactCount > 0 || c.driverCount > 0 || c.vehicleCount > 0 then
    .refused c.contactCount c.driverCount c.vehicleCount
  else
    .deleted

/-- C5: deleting a carrier is refused with a structured error carrying the
contact, driver and vehicle counts exactly when at least one contact,
driver or vehicle exists; otherwise the carrier is deleted with no error. -/
theorem carrierDestroy_spec (c : CarrierAgg) :
    (carrierDestroy c = .refused c.contactCount c.driverCount c.vehicleCount ↔
      0 < c.contactCount ∨ 0 < c.driverCount ∨ 0 < c.vehicleCount) ∧
    (carrierDestroy c = .deleted ↔
      c.contactCount = 0 ∧ c.driverCount = 0 ∧ c.vehicleCount = 0) := by
  unfold carrierDestroy
  by_cases h : c.contactCount > 0 || c.driverCount > 0 || c.vehicleCount > 0
  · simp only [h, if_true]
    simp only [Bool.or_eq_true, decide_eq_true_eq] at h
    constructor
    · simp [or_assoc] at h ⊢
      exact h
    · constructor
      · intro hc; cases hc
      · rintro ⟨h1, h2, h3⟩
        simp [h1, h2, h3] at h
  · simp only [h, if_false]
    simp only [Bool.or_eq_true, decide_eq_true_eq, not_or] at h
    obtain ⟨⟨h1, h2⟩, h3⟩ := h
    constructor
    · constructor
      · intro hc; cases hc
      · intro hc
        rcases hc with hc | hc | hc <;> omega
    · simp; omega

/-- The `Asset` column read by `ShipmentItem.save`: `weight_lb`, a decimal
with two places, modelled in hundredths of a pound. -/
structure AssetRow where
  weightLb : Int
deriving DecidableEq

/-- The columns of a `ShipmentItem` row used by `save` and `total_weight`.
The `asset` foreign key is non-nullable. -/
structure ShipmentItemRow where
  asset : AssetRow
  quantity : Nat
  unitWeightLb : Option Int
deriving DecidableEq

/-- Embeds `ShipmentItem.save`: `self.unit_weight_lb in [None, 0]` snapshots the
asset's current weight into `unit_weight_lb`; any other value is kept. -/
def shipmentItemSave (it : ShipmentItemRow) : ShipmentItemRow :=
  if it.unitWeightLb = none ∨ it.unitWeightLb = some 0 then
    { it with unitWeightLb := some it.asset.weightLb }
  else
    it

/-- Embeds `ShipmentItem.total_weight`: `quantity * unit_weight_lb` (undefined when
`unit_weight_lb` is null, where the Python property would raise). -/
def shipmentItemTotalWeight (it : ShipmentItemRow) : Option Int :=
  it.unitWeightLb.map fun w => (it.quantity : Int) * w

/-- C10: `save` snapshots the asset's current `weight_lb` into
`unit_weight_lb` exactly when the latter is null or 0; any other already-set
value survives every later save even if the asset's weight has changed; and
`total_weight` is `quantity * unit_weight_lb`. -/
theorem shipmentItemSave_spec (it : ShipmentItemRow) :
    ((it.unitWeightLb = none ∨ it.unitWeightLb = some 0) →
      (shipmentItemSave it).unitWeightLb = some it.asset.weightLb) ∧
    (∀ w, it.unitWeightLb = some w → w ≠ 0 →
      ∀ a, (shipmentItemSave { it with asset := a }).unitWeightLb = some w) ∧
    (∀ w, it.unitWeightLb = some w →
      shipmentItemTotalWeight it = some ((it.quantity : Int) * w)) := by
  refine ⟨?_, ?_, ?_⟩
  · intro h
    simp [shipmentItemSave, h]
  · intro w hw hw0 a
    have hcond : ¬(({ it with asset := a } : ShipmentItemRow).unitWeightLb = none ∨
        ({ it with asset := a } : ShipmentItemRow).unitWeightLb = some 0) := by
      simp [hw, hw0]
    simp [shipmentItemSave, hcond, hw, hw0]
  · intro w hw
    simp [shipmentItemTotalWeight, hw]

/-- Witness for C10 at a concrete item: a null weight is snapshotted from
the asset; a set weight of 7 survives a save under a changed asset weight;
total weight is quantity times unit weight. -/
theorem shipmentItemSave_spec_witness :
    ((ShipmentItemRow.mk (AssetRow.mk 250) 3 none).unitWeightLb = none ∨
      (ShipmentItemRow.mk (AssetRow.mk 250) 3 none).unitWeightLb = some 0 →
      (shipmentItemSave (ShipmentItemRow.mk (AssetRow.mk 250) 3 none)).unitWeightLb
        = some (AssetRow.mk 250).weightLb) ∧
    (shipmentItemSave { ShipmentItemRow.mk (AssetRow.mk 250) 2 (some 7) with
        asset := AssetRow.mk 999 }).unitWeightLb = some 7 ∧
    shipmentItemTotalWeight (ShipmentItemRow.mk (AssetRow.mk 250) 2 (some 7))
      = some ((2 : Int) * 7) :=
  ⟨fun h => (shipmentItemSave_spec (ShipmentItemRow.mk (AssetRow.mk 250) 3 none)).1 h,
    (shipmentItemSave_spec (ShipmentItemRow.mk (AssetRow.mk 250) 2 (some 7))).2.1
      7 rfl (by decide) (AssetRow.mk 999),
    (shipmentItemSave_spec (ShipmentItemRow.mk (AssetRow.mk 250) 2 (some 7))).2.2 7 rfl⟩

/-- Python string values are modelled by their character data. -/
abbrev PyStr := List Char

/-- Python `str.upper()` over the ASCII range of the validated fields. -/
def pyUpper (s : PyStr) : PyStr := s.map Char.toUpper

/-- Python `str.lower()`. -/
def pyLower (s : PyStr) : PyStr := s.map Char.toLower

/-- Python `str.strip()`: drop leading and trailing whitespace. -/
def pyStrip (s : PyStr) : PyStr :=
  ((s.dropWhile Char.isWhitespace).reverse.dropWhile Char.isWhitespace).reverse

/-- Python `str.replace("-", "")`: drop every dash. -/
def pyRemoveDashes (s : PyStr) : PyStr := s.filter fun c => c ≠ '-'

/-- The uniqueness `ValidationError`s raised by the `clean` methods and
serializers of `Carrier`, `Asset` and `CarrierContact`. -/
inductive SaveError where
  | uniqueness
deriving DecidableEq

/-- Embeds `Carrier.clean`: when `mc_number` is set, reject if some stored row's
`Upper("mc_number")` equals `self.mc_number.upper().strip()`. The store is
the `mc_number` column. -/
def carrierCleanMc (store : List PyStr) (mc : PyStr) : Except SaveError Unit :=
  if mc ≠ [] then
    if store.any (fun m => decide (pyUpper m = pyStrip (pyUpper mc))) then
      .error .uniqueness
    else .ok ()
  else .ok ()

/-- The normalization in `Carrier.save`: `upper().strip()` when set. -/
def carrierSaveNormalizeMc (mc : PyStr) : PyStr :=
  if mc ≠ [] then pyStrip (pyUpper mc) else mc

/-- Embeds `Carrier.save` on create: `full_clean()` (running `clean`), then the
normalization, then the insert. -/
def carrierCreate (store : List PyStr) (mc : PyStr) : Except SaveError (List PyStr) := do
  carrierCleanMc store mc
  .ok (store ++ [carrierSaveNormalizeMc mc])

/-- Embeds `Asset.clean`: the same case-insensitive uniqueness check over the `sku`
column. -/
def assetCleanSku (store : List PyStr) (sku : PyStr) : Except SaveError Unit :=
  if sku ≠ [] then
    if store.any (fun m => decide (pyUpper m = pyStrip (pyUpper sku))) then
      .error .uniqueness
    else .ok ()
  else .ok ()

/-- Embeds `Asset.save` on create: `full_clean()`, normalization, insert. -/
def assetCreate (store : List PyStr) (sku : PyStr) : Except SaveError (List PyStr) := do
  assetCleanSku store sku
  .ok (store ++ [if sku ≠ [] then pyStrip (pyUpper sku) else sku])

/-- Embeds `Vehicle.save`: `plate_number` upper-cased when set. -/
def vehicleSavePlate (plate : PyStr) : PyStr :=
  if plate ≠ [] then pyUpper plate else plate

/-- Embeds `CarrierContact.save` / `Driver.save`: e-mail lower-cased when set. -/
def saveEmail (email : PyStr) : PyStr :=
  if email ≠ [] then pyLower email else email

/-- Embeds `CarrierContact.save` / `Driver.save`: dashes stripped from a set phone
number. -/
def savePhone (phone : Option PyStr) : Option PyStr :=
  match phone with
  | some p => if p ≠ [] then some (pyRemoveDashes p) else some p
  | none => none

/-- C6: successful saves store normalized identifiers — carrier MC numbers
and asset SKUs upper-cased and trimmed, vehicle plates upper-cased, contact
and driver e-mails lower-cased, phone numbers with dashes stripped — and a
carrier whose MC number matches a stored one case-insensitively is rejected
with a uniqueness error; concretely, creating "MC123456" and then
"mc123456" fails. -/
theorem normalization_spec :
    (∀ store mc store', mc ≠ [] → carrierCreate store mc = .ok store' →
      store' = store ++ [pyStrip (pyUpper mc)]) ∧
    (∀ store sku store', sku ≠ [] → assetCreate store sku = .ok store' →
      store' = store ++ [pyStrip (pyUpper sku)]) ∧
    (∀ plate, plate ≠ [] → vehicleSavePlate plate = pyUpper plate) ∧
    (∀ email, email ≠ [] → saveEmail email = pyLower email) ∧
    (∀ p, p ≠ [] → savePhone (some p) = some (pyRemoveDashes p)) ∧
    (∀ store mc, mc ≠ [] → (∃ m ∈ store, pyUpper m = pyStrip (pyUpper mc)) →
      carrierCreate store mc = .error .uniqueness) ∧
    (carrierCreate [] "MC123456".toList = .ok ["MC123456".toList] ∧
      carrierCreate ["MC123456".toList] "mc123456".toList = .error .uniqueness) := by
  refine ⟨?_, ?_, ?_, ?_, ?_, ?_, ?_, ?_⟩
  · intro store mc store' hmc h
    by_cases ha : store.any (fun m => decide (pyUpper m = pyStrip (pyUpper mc)))
    · simp [carrierCreate, carrierCleanMc, hmc, ha, Bind.bind, Except.bind] at h
    · simp [carrierCreate, carrierCleanMc, carrierSaveNormalizeMc, hmc, ha,
        Bind.bind, Except.bind, pure, Except.pure] at h
      exact h.symm
  · intro store sku store' hsku h
    by_cases ha : store.any (fun m => decide (pyUpper m = pyStrip (pyUpper sku)))
    · simp [assetCreate, assetCleanSku, hsku, ha, Bind.bind, Except.bind] at h
    · simp [assetCreate, assetCleanSku, hsku, ha,
        Bind.bind, Except.bind, pure, Except.pure] at h
      exact h.symm
  · intro plate hp
    simp [vehicleSavePlate, hp]
  · intro email he
    simp [saveEmail, he]
  · intro p hp
    simp [savePhone, hp]
  · intro store mc hmc hex
    have ha : store.any (fun m => decide (pyUpper m = pyStrip (pyUpper mc))) = true := by
      rw [List.any_eq_true]
      rcases hex with ⟨m, hm, hup⟩
      exact ⟨m, hm, by simp [hup]⟩
    simp [carrierCreate, carrierCleanMc, hmc, ha, Bind.bind, Except.bind]
  · rfl
  · rfl

/-- Witness for C6: creating a second carrier with the MC number "mc123456"
against a store holding "MC123456" fails with the uniqueness error. -/
theorem normalization_spec_witness :
    carrierCreate ["MC123456".toList] "mc123456".toList = .error .uniqueness :=
  normalization_spec.2.2.2.2.2.1 ["MC123456".toList] "mc123456".toList
    (by decide) ⟨"MC123456".toList, by simp, by decide⟩

/-- The columns of a `CarrierContact` row relevant to the primary-contact
invariant. Rows are identified by their index in the store. -/
structure ContactRow where
  carrierId : Nat
  isPrimary : Bool
deriving DecidableEq

/-- The row predicate of the partial unique index
`unique_primary_contact_per_carrier`, for carrier `k`. -/
def primaryFor (k : Nat) (c : ContactRow) : Bool :=
  decide (c.carrierId = k) && c.isPrimary

/-- Embeds `CarrierContact.clean`: a primary contact is rejected when another
contact of the same carrier is already primary (`excludePk` skips the row
itself during an edit). The serializer's `validate` performs the same
check. -/
def contactClean (store : List ContactRow) (excludePk : Option Nat) (c : ContactRow) :
    Except SaveError Unit :=
  if c.isPrimary then
    if (match excludePk with
        | none => store
        | some i => store.eraseIdx i).any (primaryFor c.carrierId) then
      .error .uniqueness
    else .ok ()
  else .ok ()

/-- Inserting a contact row under the partial unique constraint: a second
primary row for the same carrier violates the index. -/
def dbInsertContact (store : List ContactRow) (c : ContactRow) :
    Except SaveError (List ContactRow) :=
  if c.isPrimary && store.any (primaryFor c.carrierId) then .error .uniqueness
  else .ok (store ++ [c])

/-- Updating row `i` under the partial unique constraint: the new row value
may not make a second primary row for its carrier among the other rows. -/
def dbUpdateContact (store : List ContactRow) (i : Nat) (c : ContactRow) :
    Except SaveError (List ContactRow) :=
  if c.isPrimary && (store.eraseIdx i).any (primaryFor c.carrierId) then .error .uniqueness
  else .ok (store.set i c)

/-- The invariant: at most one primary contact row per carrier. -/
def atMostOnePrimary (store : List ContactRow) : Prop :=
  ∀ k, store.countP (primaryFor k) ≤ 1

theorem countP_set_le {α : Type} (p : α → Bool) :
    ∀ (l : List α) (i : Nat) (c : α),
      (l.set i c).countP p ≤ (l.eraseIdx i).countP p + (if p c then 1 else 0) := by
  intro l
  induction l with
  | nil => intro i c; simp
  | cons a as ih =>
    intro i c
    cases i with
    | zero =>
      simp only [List.set, List.eraseIdx, List.countP_cons]
      omega
    | succ n =>
      simp only [List.set, List.eraseIdx, List.countP_cons]
      have := ih n c
      omega

/-- C7: the validation-level check rejects a primary contact exactly when
the carrier already has another primary contact (for creates and for edits
excluding the row itself), and the data-store constraint makes every
successful insert or update preserve "at most one primary contact per
carrier". -/
theorem primaryContact_invariant :
    (∀ store c, contactClean store none c = .error .uniqueness ↔
      c.isPrimary = true ∧
        ∃ x ∈ store, x.carrierId = c.carrierId ∧ x.isPrimary = true) ∧
    (∀ store i c, contactClean store (some i) c = .error .uniqueness ↔
      c.isPrimary = true ∧
        ∃ x ∈ store.eraseIdx i, x.carrierId = c.carrierId ∧ x.isPrimary = true) ∧
    (∀ store c store', dbInsertContact store c = .ok store' →
      atMostOnePrimary store → atMostOnePrimary store') ∧
    (∀ store i c store', dbUpdateContact store i c = .ok store' →
      atMostOnePrimary store → atMostOnePrimary store') := by
  have hclean : ∀ (others : List ContactRow) (c : ContactRow),
      (if c.isPrimary then
        (if others.any (primaryFor c.carrierId) then
          (.error .uniqueness : Except SaveError Unit)
        else .ok ())
      else .ok ()) = .error .uniqueness ↔
      c.isPrimary = true ∧
        ∃ x ∈ others, x.carrierId = c.carrierId ∧ x.isPrimary = true := by
    intro others c
    by_cases hp : c.isPrimary
    · by_cases ha : others.any (primaryFor c.carrierId)
      · constructor
        · intro _
          rw [List.any_eq_true] at ha
          rcases ha with ⟨x, hx, hpx⟩
          simp only [primaryFor, Bool.and_eq_true, decide_eq_true_eq] at hpx
          exact ⟨hp, x, hx, hpx⟩
        · intro _
          simp [hp, ha]
      · constructor
        · intro hc
          simp [hp, ha] at hc
        · rintro ⟨-, x, hx, hk, hpx⟩
          refine absurd (List.any_eq_true.mpr ⟨x, hx, ?_⟩) ha
          simp only [primaryFor, Bool.and_eq_true, decide_eq_true_eq]
          exact ⟨hk, hpx⟩
    · constructor
      · intro hc
        simp [hp] at hc
      · rintro ⟨hc, -⟩
        exact absurd hc hp
  refine ⟨?_, ?_, ?_, ?_⟩
  · intro store c
    exact hclean store c
  · intro store i c
    exact hclean (store.eraseIdx i) c
  · intro store c store' h hinv
    unfold dbInsertContact at h
    by_cases hg : c.isPrimary && store.any (primaryFor c.carrierId)
    · simp [hg] at h
    · simp only [hg, Bool.false_eq_true, if_false, Except.ok.injEq] at h
      subst h
      intro k
      rw [List.countP_append]
      by_cases hc : primaryFor k c
      · have hc2 : c.carrierId = k ∧ c.isPrimary = true := by
          have hc' := hc
          simp only [primaryFor, Bool.and_eq_true, decide_eq_true_eq] at hc'
          exact hc'
        obtain ⟨hk, hcp⟩ := hc2
        have hany : store.any (primaryFor c.carrierId) = false := by
          cases hsa : store.any (primaryFor c.carrierId) with
          | false => rfl
          | true => exact absurd (by simp [hcp, hsa]) hg
        have h0 : store.countP (primaryFor k) = 0 := by
          rw [List.countP_eq_zero]
          intro x hx hpx
          rw [hk] at hany
          exact absurd hany (by simp [List.any_eq_true.mpr ⟨x, hx, hpx⟩])
        simp [h0, List.countP_cons, hc]
      · have h1 : List.countP (primaryFor k) [c] = 0 := by
          simp [List.countP_cons, hc]
        rw [h1]
        simpa using hinv k
  · intro store i c store' h hinv
    unfold dbUpdateContact at h
    by_cases hg : c.isPrimary && (store.eraseIdx i).any (primaryFor c.carrierId)
    · simp [hg] at h
    · simp only [hg, Bool.false_eq_true, if_false, Except.ok.injEq] at h
      subst h
      intro k
      have hle := countP_set_le (primaryFor k) store i c
      by_cases hc : primaryFor k c
      · have hc2 : c.carrierId = k ∧ c.isPrimary = true := by
          have hc' := hc
          simp only [primaryFor, Bool.and_eq_true, decide_eq_true_eq] at hc'
          exact hc'
        obtain ⟨hk, hcp⟩ := hc2
        have hany : (store.eraseIdx i).any (primaryFor c.carrierId) = false := by
          cases hsa : (store.eraseIdx i).any (primaryFor c.carrierId) with
          | false => rfl
          | true => exact absurd (by simp [hcp, hsa]) hg
        have h0 : (store.eraseIdx i).countP (primaryFor k) = 0 := by
          rw [List.countP_eq_zero]
          intro x hx hpx
          rw [hk] at hany
          exact absurd hany (by simp [List.any_eq_true.mpr ⟨x, hx, hpx⟩])
        rw [h0, if_pos hc] at hle
        simpa using hle
      · rw [if_neg hc] at hle
        have hsub : (store.eraseIdx i).countP (primaryFor k) ≤ store.countP (primaryFor k) :=
          (List.eraseIdx_sublist store i).countP_le _

        have := hinv k
        omega

/-- Witness for C7: inserting a non-primary contact next to an existing
primary one succeeds and keeps at most one primary contact per carrier. -/
theorem primaryContact_invariant_witness :
    atMostOnePrimary [ContactRow.mk 1 true, ContactRow.mk 1 false] :=
  primaryContact_invariant.2.2.1 [ContactRow.mk 1 true] (ContactRow.mk 1 false)
    [ContactRow.mk 1 true, ContactRow.mk 1 false] rfl
    (by
      intro k
      rw [List.countP_cons, List.countP_nil]
      by_cases hk : primaryFor k (ContactRow.mk 1 true) <;> simp [hk])

/-- The `GPSTrackingEvent.EventType` choices. -/
inductive GpsEventType where
  | arrived
  | departed
  | stopped
  | inTransit
  | custom
deriving DecidableEq

/-- The columns of a `GPSTrackingEvent` row used by its chronology and
uniqueness rules; the device is fixed, a log is one device's events. -/
structure GpsEvent where
  eventType : GpsEventType
  eventTimestamp : Nat
deriving DecidableEq

/-- The device's latest tracking event,
`order_by("-event_timestamp").first()`. -/
def gpsLatestEvent (log : List GpsEvent) : Option GpsEvent :=
  latestBy GpsEvent.eventTimestamp log

/-- Embeds `GPSTrackingEvent.clean`: only the chronological validation — events of
every type must not precede the device's latest known event. -/
def gpsEventClean (log : List GpsEvent) (e : GpsEvent) : Except EventError Unit :=
  match gpsLatestEvent log with
  | some l =>
    if e.eventTimestamp < l.eventTimestamp then .error .chronology else .ok ()
  | none => .ok ()

/-- Inserting a tracking event row under the `UniqueConstraint` on
`(gps_device, event_type, event_timestamp)`. -/
def gpsDbInsert (log : List GpsEvent) (e : GpsEvent) : Except EventError (List GpsEvent) :=
  if log.any (fun x => decide (x.eventType = e.eventType ∧
      x.eventTimestamp = e.eventTimestamp)) then
    .error .integrityError
  else .ok (log ++ [e])

/-- No two events of the device share the same (event type, timestamp). -/
def gpsNoDuplicates (log : List GpsEvent) : Prop :=
  log.Pairwise fun a b => ¬(a.eventType = b.eventType ∧ a.eventTimestamp = b.eventTimestamp)

/-- C8: validating a new GPS tracking event fails with the chronology error
exactly when its timestamp strictly precedes some existing event of the
device (whatever the event types), and every insert that passes the
database uniqueness constraint keeps the device's events free of duplicate
(event type, timestamp) pairs. -/
theorem gpsEvent_spec :
    (∀ log e, gpsEventClean log e = .error .chronology ↔
      ∃ x ∈ log, e.eventTimestamp < x.eventTimestamp) ∧
    (∀ log e log', gpsDbInsert log e = .ok log' →
      gpsNoDuplicates log → gpsNoDuplicates log') := by
  constructor
  · intro log e
    unfold gpsEventClean gpsLatestEvent
    cases h : latestBy GpsEvent.eventTimestamp log with
    | none =>
      have hnil : log = [] := (latestBy_eq_none_iff _ log).mp h
      subst hnil
      simp
    | some m =>
      by_cases hlt : e.eventTimestamp < m.eventTimestamp
      · simp only [hlt, if_true]
        exact ⟨fun _ => ⟨m, latestBy_mem _ h, hlt⟩, fun _ => trivial⟩
      · simp only [hlt, if_false]
        constructor
        · intro hc; cases hc
        · rintro ⟨x, hx, hxlt⟩
          exact absurd (lt_of_lt_of_le hxlt (latestBy_max _ h x hx)) hlt
  · intro log e log' h hnd
    unfold gpsDbInsert at h
    by_cases ha : log.any (fun x => decide (x.eventType = e.eventType ∧
        x.eventTimestamp = e.eventTimestamp))
    · rw [if_pos ha] at h
      exact absurd h (by simp)
    · rw [if_neg ha, Except.ok.injEq] at h
      subst h
      rw [gpsNoDuplicates, List.pairwise_append]
      refine ⟨hnd, List.pairwise_singleton _ _, ?_⟩
      intro a hal b hb
      rw [List.mem_singleton] at hb
      subst hb
      intro hdup
      exact absurd (List.any_eq_true.mpr ⟨a, hal, by simpa using hdup⟩) ha

/-- Witness for C8: inserting (Departed, 5) after (Arrived, 3) keeps the
device's event log duplicate-free. -/
theorem gpsEvent_spec_witness :
    gpsNoDuplicates [GpsEvent.mk GpsEventType.arrived 3, GpsEvent.mk GpsEventType.departed 5] :=
  gpsEvent_spec.2 [GpsEvent.mk GpsEventType.arrived 3] (GpsEvent.mk GpsEventType.departed 5)
    [GpsEvent.mk GpsEventType.arrived 3, GpsEvent.mk GpsEventType.departed 5] rfl
    (List.pairwise_singleton _ _)

/-- The `carrier_id` column of a `Driver` row. -/
structure DriverRow where
  carrierId : Nat
deriving DecidableEq

/-- The `carrier_id` column of a `Vehicle` row. -/
structure VehicleRow where
  carrierId : Nat
deriving DecidableEq

/-- The fields of a `Shipment` read by `Shipment.clean`. Unset nullable
values are `none`; `originId` / `destinationId` are the raw foreign key ids
(`origin_id` / `destination_id`), which the source checks through Python
truthiness. -/
structure ShipmentFields where
  scheduledPickup : Option Nat
  scheduledDelivery : Option Nat
  actualPickup : Option Nat
  actualDelivery : Option Nat
  carrierId : Option Nat
  driver : Option DriverRow
  vehicle : Option VehicleRow
  originId : Option Nat
  destinationId : Option Nat
deriving DecidableEq

/-- Python truthiness of a nullable integer id: `None` and `0` are falsy. -/
def truthyId : Option Nat → Bool
  | none => false
  | some n => decide (n ≠ 0)

/-- Rule 1 of `Shipment.clean`: scheduled delivery before scheduled pickup. -/
def cleanSchedSeg (s : ShipmentFields) : List (String × String) :=
  match s.scheduledPickup, s.scheduledDelivery with
  | some p, some d =>
    if d < p then
      [("scheduled_delivery", "Scheduled delivery cannot be before scheduled pickup.")]
    else []
  | _, _ => []

/-- Rule 2 of `Shipment.clean`: actual delivery before actual pickup. -/
def cleanActualSeg (s : ShipmentFields) : List (String × String) :=
  match s.actualPickup, s.actualDelivery with
  | some p, some d =>
    if d < p then
      [("actual_delivery", "Actual delivery cannot be before actual pickup.")]
    else []
  | _, _ => []

/-- Rule 3 of `Shipment.clean`: assigned driver not of the assigned
carrier. -/
def cleanDriverSeg (s : ShipmentFields) : List (String × String) :=
  match s.carrierId, s.driver with
  | some k, some dr =>
    if dr.carrierId ≠ k then
      [("driver", "Selected driver does not belong to the assigned carrier.")]
    else []
  | _, _ => []

/-- Rule 4 of `Shipment.clean`: assigned vehicle not of the assigned
carrier. -/
def cleanVehicleSeg (s : ShipmentFields) : List (String × String) :=
  match s.carrierId, s.vehicle with
  | some k, some v =>
    if v.carrierId ≠ k then
      [("vehicle", "Selected vehicle does not belong to the assigned carrier.")]
    else []
  | _, _ => []

/-- Rule 5 of `Shipment.clean`: origin equal to destination (both ids
truthy). -/
def cleanDestSeg (s : ShipmentFields) : List (String × String) :=
  if truthyId s.originId && truthyId s.destinationId then
    if s.originId = s.destinationId then
      [("destination", "Origin and destination cannot be the same.")]
    else []
  else []

/-- The error dict of `Shipment.clean`, in source order of the five rules. -/
def shipmentCleanErrors (s : ShipmentFields) : List (String × String) :=
  cleanSchedSeg s ++ cleanActualSeg s ++ cleanDriverSeg s ++
    cleanVehicleSeg s ++ cleanDestSeg s

/-- Embeds `Shipment.clean`: `if errors: raise ValidationError(errors)`. -/
def shipmentClean (s : ShipmentFields) : Except (List (String × String)) Unit :=
  if shipmentCleanErrors s = [] then .ok () else .error (shipmentCleanErrors s)

theorem cleanSchedSeg_ne_iff (s : ShipmentFields) :
    cleanSchedSeg s ≠ [] ↔
      ∃ p d, s.scheduledPickup = some p ∧ s.scheduledDelivery = some d ∧ d < p := by
  unfold cleanSchedSeg
  cases hsp : s.scheduledPickup with
  | none => simp
  | some p =>
    cases hsd : s.scheduledDelivery with
    | none => simp
    | some d => by_cases hlt : d < p <;> simp [hlt]

theorem cleanSchedSeg_keys (s : ShipmentFields) :
    ∀ x ∈ cleanSchedSeg s, x.1 = "scheduled_delivery" := by
  intro x hx
  unfold cleanSchedSeg at hx
  split at hx
  · split at hx <;> simp at hx
    simp [hx]
  · simp at hx

theorem cleanActualSeg_ne_iff (s : ShipmentFields) :
    cleanActualSeg s ≠ [] ↔
      ∃ p d, s.actualPickup = some p ∧ s.actualDelivery = some d ∧ d < p := by
  unfold cleanActualSeg
  cases hsp : s.actualPickup with
  | none => simp
  | some p =>
    cases hsd : s.actualDelivery with
    | none => simp
    | some d => by_cases hlt : d < p <;> simp [hlt]

theorem cleanActualSeg_keys (s : ShipmentFields) :
    ∀ x ∈ cleanActualSeg s, x.1 = "actual_delivery" := by
  intro x hx
  unfold cleanActualSeg at hx
  split at hx
  · split at hx <;> simp at hx
    simp [hx]
  · simp at hx

theorem cleanDriverSeg_ne_iff (s : ShipmentFields) :
    cleanDriverSeg s ≠ [] ↔
      ∃ k dr, s.carrierId = some k ∧ s.driver = some dr ∧ dr.carrierId ≠ k := by
  unfold cleanDriverSeg
  cases hck : s.carrierId with
  | none => simp
  | some k =>
    cases hdr : s.driver with
    | none => simp
    | some dr => by_cases hne : dr.carrierId ≠ k <;> simp [hne]

theorem cleanDriverSeg_keys (s : ShipmentFields) :
    ∀ x ∈ cleanDriverSeg s, x.1 = "driver" := by
  intro x hx
  unfold cleanDriverSeg at hx
  split at hx
  · split at hx <;> simp at hx
    simp [hx]
  · simp at hx

theorem cleanVehicleSeg_ne_iff (s : ShipmentFields) :
    cleanVehicleSeg s ≠ [] ↔
      ∃ k v, s.carrierId = some k ∧ s.vehicle = some v ∧ v.carrierId ≠ k := by
  unfold cleanVehicleSeg
  cases hck : s.carrierId with
  | none => simp
  | some k =>
    cases hv : s.vehicle with
    | none => simp
    | some v => by_cases hne : v.carrierId ≠ k <;> simp [hne]

theorem cleanVehicleSeg_keys (s : ShipmentFields) :
    ∀ x ∈ cleanVehicleSeg s, x.1 = "vehicle" := by
  intro x hx
  unfold cleanVehicleSeg at hx
  split at hx
  · split at hx <;> simp at hx
    simp [hx]
  · simp at hx

theorem cleanDestSeg_ne_iff (s : ShipmentFields)
    (hop : ∀ o, s.originId = some o → 0 < o)
    (hdp : ∀ d, s.destinationId = some d → 0 < d) :
    cleanDestSeg s ≠ [] ↔
      ∃ o, s.originId = some o ∧ s.destinationId = some o := by
  unfold cleanDestSeg
  cases hoi : s.originId with
  | none => simp [truthyId]
  | some o =>
    cases hdi : s.destinationId with
    | none => simp [truthyId]
    | some d =>
      have ho : o ≠ 0 := Nat.pos_iff_ne_zero.mp (hop o hoi)
      have hd : d ≠ 0 := Nat.pos_iff_ne_zero.mp (hdp d hdi)
      by_cases heq : o = d
      · subst heq
        simp [truthyId, ho]
      · simp [truthyId, ho, hd, heq, Option.some_inj]
        intro hdo
        omega

theorem cleanDestSeg_keys (s : ShipmentFields) :
    ∀ x ∈ cleanDestSeg s, x.1 = "destination" := by
  intro x hx
  unfold cleanDestSeg at hx
  split at hx
  · split at hx <;> simp at hx
    simp [hx]
  · simp at hx

/-- C9: `Shipment.clean` raises exactly when one of the five cross-field
rules is violated — scheduled delivery strictly before scheduled pickup,
actual delivery strictly before actual pickup, a set driver (or vehicle)
whose carrier differs from the set carrier, or origin equal to destination
— each rule firing only with both of its fields set (so equal timestamps
pass), and every error is attributed to the field of its rule. -/
theorem shipmentClean_spec (s : ShipmentFields)
    (hop : ∀ o, s.originId = some o → 0 < o)
    (hdp : ∀ d, s.destinationId = some d → 0 < d) :
    ((∃ errs, shipmentClean s = .error errs) ↔
      (∃ p d, s.scheduledPickup = some p ∧ s.scheduledDelivery = some d ∧ d < p) ∨
      (∃ p d, s.actualPickup = some p ∧ s.actualDelivery = some d ∧ d < p) ∨
      (∃ k dr, s.carrierId = some k ∧ s.driver = some dr ∧ dr.carrierId ≠ k) ∨
      (∃ k v, s.carrierId = some k ∧ s.vehicle = some v ∧ v.carrierId ≠ k) ∨
      (∃ o, s.originId = some o ∧ s.destinationId = some o)) ∧
    ((∃ m, ("scheduled_delivery", m) ∈ shipmentCleanErrors s) ↔
      (∃ p d, s.scheduledPickup = some p ∧ s.scheduledDelivery = some d ∧ d < p)) ∧
    ((∃ m, ("actual_delivery", m) ∈ shipmentCleanErrors s) ↔
      (∃ p d, s.actualPickup = some p ∧ s.actualDelivery = some d ∧ d < p)) ∧
    ((∃ m, ("driver", m) ∈ shipmentCleanErrors s) ↔
      (∃ k dr, s.carrierId = some k ∧ s.driver = some dr ∧ dr.carrierId ≠ k)) ∧
    ((∃ m, ("vehicle", m) ∈ shipmentCleanErrors s) ↔
      (∃ k v, s.carrierId = some k ∧ s.vehicle = some v ∧ v.carrierId ≠ k)) ∧
    ((∃ m, ("destination", m) ∈ shipmentCleanErrors s) ↔
      (∃ o, s.originId = some o ∧ s.destinationId = some o)) := by
  have hkey : ∀ (key : String) (seg : ShipmentFields → List (String × String)),
      (∀ x ∈ seg s, x.1 = key) →
      ((∃ m, (key, m) ∈ seg s) ↔ seg s ≠ []) := by
    intro key seg hk
    constructor
    · rintro ⟨m, hm⟩
      exact List.ne_nil_of_mem hm
    · intro hne
      rcases List.exists_mem_of_ne_nil _ hne with ⟨x, hx⟩
      exact ⟨x.2, by rw [show ((key, x.2) : String × String) = x from
        Prod.ext (hk x hx).symm rfl]; exact hx⟩
  have hdisj : ∀ (key : String),
      (∃ m, (key, m) ∈ shipmentCleanErrors s) ↔
      ((∃ m, (key, m) ∈ cleanSchedSeg s) ∨ (∃ m, (key, m) ∈ cleanActualSeg s) ∨
       (∃ m, (key, m) ∈ cleanDriverSeg s) ∨ (∃ m, (key, m) ∈ cleanVehicleSeg s) ∨
       (∃ m, (key, m) ∈ cleanDestSeg s)) := by
    intro key
    constructor
    · rintro ⟨m, hm⟩
      unfold shipmentCleanErrors at hm
      simp only [List.mem_append] at hm
      rcases hm with ((((h | h) | h) | h) | h)
      · exact Or.inl ⟨m, h⟩
      · exact Or.inr (Or.inl ⟨m, h⟩)
      · exact Or.inr (Or.inr (Or.inl ⟨m, h⟩))
      · exact Or.inr (Or.inr (Or.inr (Or.inl ⟨m, h⟩)))
      · exact Or.inr (Or.inr (Or.inr (Or.inr ⟨m, h⟩)))
    · intro h
      rcases h with ⟨m, hm⟩ | ⟨m, hm⟩ | ⟨m, hm⟩ | ⟨m, hm⟩ | ⟨m, hm⟩ <;>
        · refine ⟨m, ?_⟩
          unfold shipmentCleanErrors
          simp only [List.mem_append]
          tauto
  have hdistinct : ∀ (key : String) (seg : ShipmentFields → List (String × String))
      (key' : String), (∀ x ∈ seg s, x.1 = key') → key ≠ key' →
      ¬(∃ m, (key, m) ∈ seg s) := by
    rintro key seg key' hk hne ⟨m, hm⟩
    exact hne (hk _ hm)
  refine ⟨?_, ?_, ?_, ?_, ?_, ?_⟩
  · constructor
    · rintro ⟨errs, herrs⟩
      unfold shipmentClean at herrs
      by_cases hnil : shipmentCleanErrors s = []
      · rw [if_pos hnil] at herrs; cases herrs
      · by_cases h1 : cleanSchedSeg s = []
        · by_cases h2 : cleanActualSeg s = []
          · by_cases h3 : cleanDriverSeg s = []
            · by_cases h4 : cleanVehicleSeg s = []
              · by_cases h5 : cleanDestSeg s = []
                · exfalso
                  apply hnil
                  unfold shipmentCleanErrors
                  rw [h1, h2, h3, h4, h5]
                  rfl
                · exact Or.inr (Or.inr (Or.inr (Or.inr
                    ((cleanDestSeg_ne_iff s hop hdp).mp h5))))
              · exact Or.inr (Or.inr (Or.inr (Or.inl
                  ((cleanVehicleSeg_ne_iff s).mp h4))))
            · exact Or.inr (Or.inr (Or.inl ((cleanDriverSeg_ne_iff s).mp h3)))
          · exact Or.inr (Or.inl ((cleanActualSeg_ne_iff s).mp h2))
        · exact Or.inl ((cleanSchedSeg_ne_iff s).mp h1)
    · intro hv
      have hne : shipmentCleanErrors s ≠ [] := by
        unfold shipmentCleanErrors
        rcases hv with hv | hv | hv | hv | hv
        · have := (cleanSchedSeg_ne_iff s).mpr hv
          intro hc
          simp only [List.append_eq_nil] at hc
          exact this hc.1.1.1.1
        · have := (cleanActualSeg_ne_iff s).mpr hv
          intro hc
          simp only [List.append_eq_nil] at hc
          exact this hc.1.1.1.2
        · have := (cleanDriverSeg_ne_iff s).mpr hv
          intro hc
          simp only [List.append_eq_nil] at hc
          exact this hc.1.1.2
        · have := (cleanVehicleSeg_ne_iff s).mpr hv
          intro hc
          simp only [List.append_eq_nil] at hc
          exact this hc.1.2
        · have := (cleanDestSeg_ne_iff s hop hdp).mpr hv
          intro hc
          simp only [List.append_eq_nil] at hc
          exact this hc.2
      refine ⟨shipmentCleanErrors s, ?_⟩
      unfold shipmentClean
      rw [if_neg hne]
  · rw [hdisj, hkey "scheduled_delivery" cleanSchedSeg (cleanSchedSeg_keys s),
      cleanSchedSeg_ne_iff]
    have h2 := hdistinct "scheduled_delivery" cleanActualSeg "actual_delivery"
      (cleanActualSeg_keys s) (by decide)
    have h3 := hdistinct "scheduled_delivery" cleanDriverSeg "driver"
      (cleanDriverSeg_keys s) (by decide)
    have h4 := hdistinct "scheduled_delivery" cleanVehicleSeg "vehicle"
      (cleanVehicleSeg_keys s) (by decide)
    have h5 := hdistinct "scheduled_delivery" cleanDestSeg "destination"
      (cleanDestSeg_keys s) (by decide)
    constructor
    · rintro (h | h | h | h | h)
      · exact h
      · exact absurd h h2
      · exact absurd h h3
      · exact absurd h h4
      · exact absurd h h5
    · exact Or.inl
  · rw [hdisj, hkey "actual_delivery" cleanActualSeg (cleanActualSeg_keys s),
      cleanActualSeg_ne_iff]
    have h1 := hdistinct "actual_delivery" cleanSchedSeg "scheduled_delivery"
      (cleanSchedSeg_keys s) (by decide)
    have h3 := hdistinct "actual_delivery" cleanDriverSeg "driver"
      (cleanDriverSeg_keys s) (by decide)
    have h4 := hdistinct "actual_delivery" cleanVehicleSeg "vehicle"
      (cleanVehicleSeg_keys s) (by decide)
    have h5 := hdistinct "actual_delivery" cleanDestSeg "destination"
      (cleanDestSeg_keys s) (by decide)
    constructor
    · rintro (h | h | h | h | h)
      · exact absurd h h1
      · exact h
      · exact absurd h h3
      · exact absurd h h4
      · exact absurd h h5
    · exact fun h => Or.inr (Or.inl h)
  · rw [hdisj, hkey "driver" cleanDriverSeg (cleanDriverSeg_keys s),
      cleanDriverSeg_ne_iff]
    have h1 := hdistinct "driver" cleanSchedSeg "scheduled_delivery"
      (cleanSchedSeg_keys s) (by decide)
    have h2 := hdistinct "driver" cleanActualSeg "actual_delivery"
      (cleanActualSeg_keys s) (by decide)
    have h4 := hdistinct "driver" cleanVehicleSeg "vehicle"
      (cleanVehicleSeg_keys s) (by decide)
    have h5 := hdistinct "driver" cleanDestSeg "destination"
      (cleanDestSeg_keys s) (by decide)
    constructor
    · rintro (h | h | h | h | h)
      · exact absurd h h1
      · exact absurd h h2
      · exact h
      · exact absurd h h4
      · exact absurd h h5
    · exact fun h => Or.inr (Or.inr (Or.inl h))
  · rw [hdisj, hkey "vehicle" cleanVehicleSeg (cleanVehicleSeg_keys s),
      cleanVehicleSeg_ne_iff]
    have h1 := hdistinct "vehicle" cleanSchedSeg "scheduled_delivery"
      (cleanSchedSeg_keys s) (by decide)
    have h2 := hdistinct "vehicle" cleanActualSeg "actual_delivery"
      (cleanActualSeg_keys s) (by decide)
    have h3 := hdistinct "vehicle" cleanDriverSeg "driver"
      (cleanDriverSeg_keys s) (by decide)
    have h5 := hdistinct "vehicle" cleanDestSeg "destination"
      (cleanDestSeg_keys s) (by decide)
    constructor
    · rintro (h | h | h | h | h)
      · exact absurd h h1
      · exact absurd h h2
      · exact absurd h h3
      · exact h
      · exact absurd h h5
    · exact fun h => Or.inr (Or.inr (Or.inr (Or.inl h)))
  · rw [hdisj, hkey "destination" cleanDestSeg (cleanDestSeg_keys s),
      cleanDestSeg_ne_iff s hop hdp]
    have h1 := hdistinct "destination" cleanSchedSeg "scheduled_delivery"
      (cleanSchedSeg_keys s) (by decide)
    have h2 := hdistinct "destination" cleanActualSeg "actual_delivery"
      (cleanActualSeg_keys s) (by decide)
    have h3 := hdistinct "destination" cleanDriverSeg "driver"
      (cleanDriverSeg_keys s) (by decide)
    have h4 := hdistinct "destination" cleanVehicleSeg "vehicle"
      (cleanVehicleSeg_keys s) (by decide)
    constructor
    · rintro (h | h | h | h | h)
      · exact absurd h h1
      · exact absurd h h2
      · exact absurd h h3
      · exact absurd h h4
      · exact h
    · exact fun h => Or.inr (Or.inr (Or.inr (Or.inr h)))

/-- Witness for C9 at a shipment whose scheduled delivery (5) precedes its
scheduled pickup (10): validation raises. -/
theorem shipmentClean_spec_witness :
    ∃ errs, shipmentClean
      (ShipmentFields.mk (some 10) (some 5) none none none none none
        (some 1) (some 2)) = .error errs :=
  (shipmentClean_spec
      (ShipmentFields.mk (some 10) (some 5) none none none none none
        (some 1) (some 2))
      (by intro o h; cases h; decide)
      (by intro d h; cases h; decide)).1.mpr
    (Or.inl ⟨10, 5, rfl, rfl, by decide⟩)

end ReTrack
